import Mathlib

/-!
Verification of the CSV normalizer (src/normalize.py) against its
natural-language specification.  The Python source is shallowly embedded:
each Python function becomes a Lean definition with the same name; Python
exceptions become `Except`; the two error classes of the per-row pipeline
(`ValueError`, caught; `IndexError`, uncaught) are distinguished explicitly.
Floating-point duration values are modelled as exact decimal numbers
(an integer mantissa with a power-of-ten scale), matching Python float
semantics on all decimal inputs whose arithmetic is exact.
-/

instance {ε α : Type} [DecidableEq ε] [DecidableEq α] : DecidableEq (Except ε α) := fun x y =>
  match x, y with
  | .ok a, .ok b => decidable_of_iff (a = b) (by simp)
  | .error a, .error b => decidable_of_iff (a = b) (by simp)
  | .ok _, .error _ => isFalse (by simp)
  | .error _, .ok _ => isFalse (by simp)

/-! ## Calendar arithmetic (model of Python `datetime` date handling) -/

def isLeap (y : Nat) : Bool := y % 4 == 0 && (y % 100 != 0 || y % 400 == 0)

def daysInMonthB (leap : Bool) : Nat → Nat
  | 1 => 31
  | 2 => if leap then 29 else 28
  | 3 => 31
  | 4 => 30
  | 5 => 31
  | 6 => 30
  | 7 => 31
  | 8 => 31
  | 9 => 30
  | 10 => 31
  | 11 => 30
  | 12 => 31
  | _ => 0

def daysInMonth (y m : Nat) : Nat := daysInMonthB (isLeap y) m

def daysInYearB (leap : Bool) : Nat := if leap then 366 else 365

def daysInYear (y : Nat) : Nat := daysInYearB (isLeap y)

def monthsBeforeB (leap : Bool) : Nat → Nat
  | 0 => 0
  | 1 => 0
  | m + 2 => monthsBeforeB leap (m + 1) + daysInMonthB leap (m + 1)

def monthsBefore (y m : Nat) : Nat := monthsBeforeB (isLeap y) m

def sumYears (y : Nat) : Nat → Nat
  | 0 => 0
  | k + 1 => daysInYear y + sumYears (y + 1) k

def yearsBefore (y : Nat) : Nat := sumYears 1969 (y - 1969)

structure DT where
  y : Nat
  mo : Nat
  d : Nat
  h : Nat
  mi : Nat
  s : Nat
deriving DecidableEq, Repr

def toDays (dt : DT) : Nat := yearsBefore dt.y + monthsBefore dt.y dt.mo + (dt.d - 1)

def toSecs (dt : DT) : Nat := toDays dt * 86400 + dt.h * 3600 + dt.mi * 60 + dt.s

def findY : Nat → Nat → Nat → Nat × Nat
  | 0, y, n => (y, n)
  | fuel + 1, y, n =>
    if n < daysInYear y then (y, n) else findY fuel (y + 1) (n - daysInYear y)

def findM : Nat → Bool → Nat → Nat → Nat × Nat
  | 0, _, m, n => (m, n + 1)
  | fuel + 1, leap, m, n =>
    if n < daysInMonthB leap m then (m, n + 1)
    else findM fuel leap (m + 1) (n - daysInMonthB leap m)

def ofSecs (n : Nat) : DT :=
  let days := n / 86400
  let sod := n % 86400
  let yr := findY 400 1969 days
  let md := findM 12 (isLeap yr.1) 1 yr.2
  ⟨yr.1, md.1, md.2, sod / 3600, sod % 3600 / 60, sod % 60⟩

def addSecs (dt : DT) (k : Nat) : DT := ofSecs (toSecs dt + k)

def DTValid (dt : DT) : Prop :=
  1 ≤ dt.mo ∧ dt.mo ≤ 12 ∧ 1 ≤ dt.d ∧ dt.d ≤ daysInMonth dt.y dt.mo ∧
  dt.h ≤ 23 ∧ dt.mi ≤ 59 ∧ dt.s ≤ 59

instance (dt : DT) : Decidable (DTValid dt) := by
  unfold DTValid; exact inferInstance

/-! ## Model of `strptime(timestamp, %m/%d/%y %I:%M:%S %p)`

Each `scan*` function implements the regular expression CPython compiles
for the corresponding directive (alternatives tried in order, greedy,
which coincides with backtracking here because the continuations are
disjoint from the extra character of the longer alternative):
`%m`/`%I`: `1[0-2]|0[1-9]|[1-9]`; `%d`: `3[01]|[12]\d|0[1-9]|[1-9]`;
`%y`: `\d\d`; `%M`: `[0-5]\d|\d`; `%S`: `6[0-1]|[0-5]\d|\d`;
`%p`: `AM|PM` case-insensitively; literal whitespace becomes `\s+`. -/

def digitVal (c : Char) : Nat := c.toNat - 48

def chIn (c : Char) (lo hi : Nat) : Bool := decide (lo ≤ c.toNat ∧ c.toNat ≤ hi)

def isDigitCh (c : Char) : Bool := chIn c 48 57

def isWS (c : Char) : Bool :=
  c = ' ' || c = '\t' || c = '\n' || c = '\r' || c = '\x0b' || c = '\x0c'

/-- Directive `%m` and `%I`: regex `1[0-2]|0[1-9]|[1-9]`. -/
def scanOneTo12 : List Char → Option (Nat × List Char)
  | [] => none
  | c :: cs =>
    if c = '1' then
      match cs with
      | c2 :: cs2 => if chIn c2 48 50 then some (10 + digitVal c2, cs2) else some (1, cs)
      | [] => some (1, [])
    else if c = '0' then
      match cs with
      | c2 :: cs2 => if chIn c2 49 57 then some (digitVal c2, cs2) else none
      | [] => none
    else if chIn c 50 57 then some (digitVal c, cs)
    else none

/-- Directive `%d`: regex `3[01]|[12]\d|0[1-9]|[1-9]`. -/
def scanDay : List Char → Option (Nat × List Char)
  | [] => none
  | c :: cs =>
    if c = '3' then
      match cs with
      | c2 :: cs2 => if chIn c2 48 49 then some (30 + digitVal c2, cs2) else some (3, cs)
      | [] => some (3, [])
    else if chIn c 49 50 then
      match cs with
      | c2 :: cs2 => if isDigitCh c2 then some (10 * digitVal c + digitVal c2, cs2)
                     else some (digitVal c, cs)
      | [] => some (digitVal c, [])
    else if c = '0' then
      match cs with
      | c2 :: cs2 => if chIn c2 49 57 then some (digitVal c2, cs2) else none
      | [] => none
    else if chIn c 52 57 then some (digitVal c, cs)
    else none

/-- Directive `%y`: regex `\d\d`. -/
def scanYear : List Char → Option (Nat × List Char)
  | a :: b :: cs =>
    if isDigitCh a && isDigitCh b then some (10 * digitVal a + digitVal b, cs) else none
  | _ => none

/-- Directive `%M`: regex `[0-5]\d|\d`. -/
def scanMinute : List Char → Option (Nat × List Char)
  | [] => none
  | c :: cs =>
    if chIn c 48 53 then
      match cs with
      | c2 :: cs2 => if isDigitCh c2 then some (10 * digitVal c + digitVal c2, cs2)
                     else some (digitVal c, cs)
      | [] => some (digitVal c, [])
    else if chIn c 54 57 then some (digitVal c, cs)
    else none

/-- Directive `%S`: regex `6[0-1]|[0-5]\d|\d`; the tail alternatives equal `%M`. -/
def scanSecond : List Char → Option (Nat × List Char)
  | [] => none
  | c :: cs =>
    if c = '6' then
      match cs with
      | c2 :: cs2 => if chIn c2 48 49 then some (60 + digitVal c2, cs2) else some (6, cs)
      | [] => some (6, [])
    else scanMinute (c :: cs)

def skipWS : List Char → List Char
  | [] => []
  | c :: cs => if isWS c then skipWS cs else c :: cs

/-- literal whitespace in the format: regex `\s+`. -/
def scanSpaces1 : List Char → Option (List Char)
  | [] => none
  | c :: cs => if isWS c then some (skipWS cs) else none

def scanLit (t : Char) : List Char → Option (List Char)
  | [] => none
  | c :: cs => if c = t then some cs else none

/-- Directive `%p`: regex `AM|PM`, compiled with IGNORECASE. -/
def scanAmPm : List Char → Option (Bool × List Char)
  | a :: m :: cs =>
    if (a = 'A' ∨ a = 'a') ∧ (m = 'M' ∨ m = 'm') then some (false, cs)
    else if (a = 'P' ∨ a = 'p') ∧ (m = 'M' ∨ m = 'm') then some (true, cs)
    else none
  | _ => none

structure RawTS where
  mo : Nat
  d : Nat
  y2 : Nat
  h12 : Nat
  mi : Nat
  s : Nat
  pm : Bool
deriving DecidableEq, Repr

def strptimeScan (cs : List Char) : Option (RawTS × List Char) := do
  let (mo, r) ← scanOneTo12 cs
  let r ← scanLit '/' r
  let (d, r) ← scanDay r
  let r ← scanLit '/' r
  let (y2, r) ← scanYear r
  let r ← scanSpaces1 r
  let (h12, r) ← scanOneTo12 r
  let r ← scanLit ':' r
  let (mi, r) ← scanMinute r
  let r ← scanLit ':' r
  let (s, r) ← scanSecond r
  let r ← scanSpaces1 r
  let (pm, r) ← scanAmPm r
  pure (⟨mo, d, y2, h12, mi, s, pm⟩, r)

/-- Model of `datetime.strptime(timestamp, %m/%d/%y %I:%M:%S %p)`: scan, then the
`datetime` constructor validation (day range before second range, as the
constructor checks fields in order), with the two-digit-year pivot
(00-68 maps to 2000-2068, 69-99 to 1969-1999) and 12-hour-to-24-hour
conversion done by `_strptime`. -/
def strptimeDT (str : String) : Except String DT :=
  match strptimeScan str.data with
  | none => .error ("time data " ++ str ++ " does not match format %m/%d/%y %I:%M:%S %p")
  | some (raw, leftover) =>
    if leftover ≠ [] then .error ("unconverted data remains: " ++ String.mk leftover)
    else
      let yy := if 69 ≤ raw.y2 then 1900 + raw.y2 else 2000 + raw.y2
      let h24 := if raw.pm then (if raw.h12 = 12 then 12 else raw.h12 + 12)
                 else (if raw.h12 = 12 then 0 else raw.h12)
      if daysInMonth yy raw.mo < raw.d then .error "day is out of range for month"
      else if 60 ≤ raw.s then .error "second must be in 0..59"
      else .ok ⟨yy, raw.mo, raw.d, h24, raw.mi, raw.s⟩

def pad2 (n : Nat) : String := if n < 10 then "0" ++ toString n else toString n

def pad4 (n : Nat) : String :=
  if n < 10 then "000" ++ toString n
  else if n < 100 then "00" ++ toString n
  else if n < 1000 then "0" ++ toString n
  else toString n

def isoCore (dt : DT) : String :=
  pad4 dt.y ++ "-" ++ pad2 dt.mo ++ "-" ++ pad2 dt.d ++ "T" ++
  pad2 dt.h ++ ":" ++ pad2 dt.mi ++ ":" ++ pad2 dt.s

/-- Source `format_timestamp` (src/normalize.py lines 31-35): parse as naive time,
attach the fixed Pacific offset (-8:00), `astimezone` to the fixed Eastern
offset (-5:00) — for fixed offsets this adds exactly
(-5:00) - (-8:00) = 10800 seconds to the clock reading — then `isoformat()`,
which renders the numeric offset `-05:00`. -/
def format_timestamp (str : String) : Except String String :=
  (strptimeDT str).map (fun dt => isoCore (addSecs dt 10800) ++ "-05:00")

/-! ## Model of Python `int()` and `float()` string parsing

`int(s)` strips surrounding whitespace, allows one optional sign, then
decimal digits with single underscores allowed only between digits.
`float(s)` additionally allows a fractional part and an exponent part.
Float values are modelled exactly, as `num / 10 ^ exp` (`PyFloat`); the
model therefore coincides with IEEE-754 `float` on inputs and sums whose
values are exactly representable, and does not model `inf`/`nan` literals
or rounding of overlong literals. -/

def trimWS (l : List Char) : List Char :=
  ((l.dropWhile isWS).reverse.dropWhile isWS).reverse

def digitsUnd : Nat → List Char → Option Nat
  | acc, [] => some acc
  | acc, '_' :: c :: cs =>
    if isDigitCh c then digitsUnd (acc * 10 + digitVal c) cs else none
  | _, '_' :: [] => none
  | acc, c :: cs =>
    if isDigitCh c then digitsUnd (acc * 10 + digitVal c) cs else none

def pyIntDigits : List Char → Option Nat
  | [] => none
  | c :: cs => if isDigitCh c then digitsUnd (digitVal c) cs else none

/-- Model of `int(s)` (base 10). -/
def pyInt (s : String) : Except String Int :=
  let core : Option Int :=
    match trimWS s.data with
    | '+' :: rest => (pyIntDigits rest).map (fun n => (n : Int))
    | '-' :: rest => (pyIntDigits rest).map (fun n => -(n : Int))
    | rest => (pyIntDigits rest).map (fun n => (n : Int))
  match core with
  | some v => .ok v
  | none => .error ("invalid literal for int() with base 10: " ++ s)

structure PyFloat where
  num : Int
  exp : Nat
deriving DecidableEq, Repr

/-- Maximal run of digits with single embedded underscores: value, digit
count, rest.  Fails on a malformed underscore; a run may be empty. -/
def digitRun : Nat → Nat → List Char → Option (Nat × Nat × List Char)
  | acc, cnt, [] => some (acc, cnt, [])
  | acc, cnt, '_' :: c :: cs =>
    if cnt ≠ 0 ∧ isDigitCh c then digitRun (acc * 10 + digitVal c) (cnt + 1) cs else none
  | _, _, '_' :: [] => none
  | acc, cnt, c :: cs =>
    if isDigitCh c then digitRun (acc * 10 + digitVal c) (cnt + 1) cs
    else some (acc, cnt, c :: cs)

def mkPyFloat (neg : Bool) (mant fracLen : Nat) (ex : Int) : PyFloat :=
  let k : Int := (fracLen : Int) - ex
  if k ≤ 0 then ⟨(if neg then -1 else 1) * (mant : Int) * (10 : Int) ^ (-k).toNat, 0⟩
  else ⟨(if neg then -1 else 1) * (mant : Int), k.toNat⟩

def pyFloatExpPart (neg : Bool) (mant fracLen : Nat) : List Char → Option PyFloat
  | [] => some (mkPyFloat neg mant fracLen 0)
  | e :: r =>
    if e = 'e' ∨ e = 'E' then
      let sr : Bool × List Char :=
        match r with
        | '+' :: r2 => (false, r2)
        | '-' :: r2 => (true, r2)
        | r2 => (false, r2)
      match digitRun 0 0 sr.2 with
      | some (ev, ne, []) =>
        if ne = 0 then none
        else some (mkPyFloat neg mant fracLen (if sr.1 then -(ev : Int) else (ev : Int)))
      | _ => none
    else none

def pyFloatCore (neg : Bool) (l : List Char) : Option PyFloat :=
  match digitRun 0 0 l with
  | none => none
  | some (ip, n1, r1) =>
    match r1 with
    | '.' :: r2 =>
      match digitRun 0 0 r2 with
      | none => none
      | some (fp, n2, r3) =>
        if n1 + n2 = 0 then none
        else pyFloatExpPart neg (ip * 10 ^ n2 + fp) n2 r3
    | _ => if n1 = 0 then none else pyFloatExpPart neg ip 0 r1

/-- Model of `float(s)` for finite decimal literals. -/
def pyFloat (s : String) : Except String PyFloat :=
  let core : Option PyFloat :=
    match trimWS s.data with
    | '+' :: rest => pyFloatCore false rest
    | '-' :: rest => pyFloatCore true rest
    | rest => pyFloatCore false rest
  match core with
  | some v => .ok v
  | none => .error ("could not convert string to float: " ++ s)

/-- Exact float addition (aligns the decimal scales). -/
def pyFloatAdd (a b : PyFloat) : PyFloat :=
  if a.exp ≤ b.exp then ⟨a.num * (10 : Int) ^ (b.exp - a.exp) + b.num, b.exp⟩
  else ⟨a.num + b.num * (10 : Int) ^ (a.exp - b.exp), a.exp⟩

def pyFloatToRat (f : PyFloat) : ℚ := (f.num : ℚ) / (10 : ℚ) ^ f.exp

def stripZeros : Nat → Int → Nat → Int × Nat
  | 0, num, e => (num, e)
  | fuel + 1, num, e =>
    if e = 0 then (num, e)
    else if num % 10 = 0 then stripZeros fuel (num / 10) (e - 1) else (num, e)

/-- Model of `str(x)` for a float `x`: minimal decimal digits, always keeping one
fractional digit (`"1.0"`, `"3724.5"`). -/
def pyFloatStr (f : PyFloat) : String :=
  let ne := stripZeros f.exp f.num f.exp
  if ne.2 = 0 then toString ne.1 ++ ".0"
  else
    let n := ne.1.natAbs
    let ip := n / 10 ^ ne.2
    let fp := n % 10 ^ ne.2
    let fs := toString fp
    (if ne.1 < 0 then "-" else "") ++ toString ip ++ "." ++
      (String.mk (List.replicate (ne.2 - fs.length) '0') ++ fs)

/-! ## The field normalizers (src/normalize.py) -/

def listContainsCh : List Char → Char → Bool
  | [], _ => false
  | c :: cs, t => if c = t then true else listContainsCh cs t

/-- Python `c in s` membership test on strings. -/
def pyContains (s : String) (c : Char) : Bool := listContainsCh s.data c

/-- Source `clean_address` (lines 17-20). -/
def clean_address (address : String) : String :=
  if pyContains address ',' then "\"" ++ address ++ "\"" else address

/-- Source `validate_zip` (lines 39-45): `int(zip_code)` may raise; then
`add_zeroes = 5 - len(zip_code)` and `'0' * add_zeroes` is prepended when
`add_zeroes` is nonzero (a negative count yields the empty string). -/
def validate_zip (zip_code : String) : Except String String :=
  match pyInt zip_code with
  | .error e => .error e
  | .ok _ =>
    let add_zeroes : Int := 5 - (zip_code.length : Int)
    if add_zeroes ≠ 0 then
      .ok (String.mk (List.replicate add_zeroes.toNat '0') ++ zip_code)
    else .ok zip_code

/-- Source `format_full_name` (lines 49-50): `full_name.upper()`, character-wise
uppercasing (ASCII mapping in this model). -/
def format_full_name (full_name : String) : String :=
  String.mk (full_name.data.map Char.toUpper)

/-- Python `s.split(sep)` for a one-character separator: splits at every
occurrence, keeping empty parts (splitting the empty string yields a
one-element list holding the empty part). -/
def splitOnCh (sep : Char) : List Char → List (List Char)
  | [] => [[]]
  | c :: cs =>
    if c = sep then [] :: splitOnCh sep cs
    else
      match splitOnCh sep cs with
      | part :: parts => (c :: part) :: parts
      | [] => [[c]]

def pySplit (s : String) (sep : Char) : List String :=
  (splitOnCh sep s.data).map String.mk

/-- Source `convert_duration` (lines 56-59): `h, m, s = duration.split(':')`
(raising on any other arity), then `int(h)*3600 + int(m)*60 + float(s)`. -/
def convert_duration (duration : String) : Except String PyFloat :=
  match pySplit duration ':' with
  | [h, m, s] => do
    let hI ← pyInt h
    let mI ← pyInt m
    let sF ← pyFloat s
    pure (pyFloatAdd ⟨hI * 3600 + mI * 60, 0⟩ sF)
  | parts =>
    .error (if parts.length < 3 then
        "not enough values to unpack (expected 3, got " ++ toString parts.length ++ ")"
      else "too many values to unpack (expected 3)")

/-- Source `get_total_duration` (lines 64-65). -/
def get_total_duration (foo_duration bar_duration : PyFloat) : PyFloat :=
  pyFloatAdd foo_duration bar_duration

/-! ## The row pipeline (src/normalize.py lines 69-117) -/

/-- The two exception classes the pipeline can meet: `ValueError` (caught
by `clean_and_normalize_row`) and `IndexError` from `row[i]` on a short
row (not caught — `except ValueError` does not match it). -/
inductive PyErr where
  | valueError (msg : String)
  | indexError
deriving DecidableEq, Repr

def liftVE : Except String α → Except PyErr α
  | .ok a => .ok a
  | .error e => .error (.valueError e)

/-- Subscript `row[i]` on a Python list raises `IndexError` when out of range. -/
def idx (row : List String) (i : Nat) : Except PyErr String :=
  match row[i]? with
  | some v => .ok v
  | none => .error .indexError

/-- Source `clean_and_normalize_row` (lines 69-98), body of the `try:` block in
source order; `str(...)` of the float durations is `pyFloatStr`. -/
def clean_and_normalize_row (row : List String) : Except PyErr (List String) := do
  let t ← idx row 0
  let ts ← liftVE (format_timestamp t)
  let a ← idx row 1
  let addr := clean_address a
  let z ← idx row 2
  let zp ← liftVE (validate_zip z)
  let nm ← idx row 3
  let name := format_full_name nm
  let f ← idx row 4
  let foo_duration ← liftVE (convert_duration f)
  let b ← idx row 5
  let bar_duration ← liftVE (convert_duration b)
  let total_duration := get_total_duration foo_duration bar_duration
  let notes ← idx row 7
  pure [ts, addr, zp, name, pyFloatStr foo_duration, pyFloatStr bar_duration,
        pyFloatStr total_duration, notes]

/-- The data-row loop (lines 114-117): per row, a `ValueError` is caught
(`print_error`, line 23-24, writes one WARN line to stderr and the row is
skipped), while an uncaught `IndexError` aborts the whole run (third
component `true`); output lines already printed remain printed. -/
def processRows : List (List String) → List String × List String × Bool
  | [] => ([], [], false)
  | row :: rest =>
    match clean_and_normalize_row row with
    | .ok out =>
      (String.intercalate "," out :: (processRows rest).1,
       (processRows rest).2.1, (processRows rest).2.2)
    | .error (.valueError msg) =>
      ((processRows rest).1,
       ("WARN: row will be omitted due to invalid input format: " ++ msg)
         :: (processRows rest).2.1,
       (processRows rest).2.2)
    | .error .indexError => ([], [], true)

/-- Source `read_and_clean_file` (lines 102-117) after the external collaborators
(byte decoding and CSV splitting): input is the list of already-split rows.
`next(csv_rows)` on empty input raises `StopIteration` (`none`); otherwise
the header is re-joined and printed first, unvalidated, then the data rows
are processed.  Result: (stdout lines, stderr lines, aborted flag). -/
def read_and_clean_file : List (List String) → Option (List String × List String × Bool)
  | [] => none
  | header :: rest =>
    some (String.intercalate "," header :: (processRows rest).1,
          (processRows rest).2.1, (processRows rest).2.2)

/-! ## The spec patterns for the timestamp field

Modelled from the spec words, for comparison with the code: text matching
`M/D/YY HH:MM:SS AM/PM` or `MM/DD/YY HH:MM:SS AM/PM` (12-hour clock),
with each letter one digit: single-digit month 1-9 and day 1-9 in the
first form, two-digit month 01-12 and day 01-31 in the second, two-digit
year, two-digit hour 01-12, minute 00-59, second 00-59, single spaces,
and the literal meridiems `AM`/`PM`. -/
def specTimestampPattern (s : String) : Bool :=
  match s.data with
  | [mc, '/', dc, '/', ya, yb, ' ', ha, hb, ':', na, nb, ':', ta, tb, ' ', p, 'M'] =>
    chIn mc 49 57 && chIn dc 49 57 && isDigitCh ya && isDigitCh yb &&
    isDigitCh ha && isDigitCh hb &&
    decide (1 ≤ 10 * digitVal ha + digitVal hb ∧ 10 * digitVal ha + digitVal hb ≤ 12) &&
    chIn na 48 53 && isDigitCh nb && chIn ta 48 53 && isDigitCh tb &&
    (p = 'A' || p = 'P')
  | [ma, mb, '/', da, db, '/', ya, yb, ' ', ha, hb, ':', na, nb, ':', ta, tb, ' ', p, 'M'] =>
    isDigitCh ma && isDigitCh mb &&
    decide (1 ≤ 10 * digitVal ma + digitVal mb ∧ 10 * digitVal ma + digitVal mb ≤ 12) &&
    isDigitCh da && isDigitCh db &&
    decide (1 ≤ 10 * digitVal da + digitVal db ∧ 10 * digitVal da + digitVal db ≤ 31) &&
    isDigitCh ya && isDigitCh yb && isDigitCh ha && isDigitCh hb &&
    decide (1 ≤ 10 * digitVal ha + digitVal hb ∧ 10 * digitVal ha + digitVal hb ≤ 12) &&
    chIn na 48 53 && isDigitCh nb && chIn ta 48 53 && isDigitCh tb &&
    (p = 'A' || p = 'P')
  | _ => false

/-- Success test on `Except` (a row is produced vs. an exception was raised). -/
def exOk {ε α : Type} : Except ε α → Bool
  | .ok _ => true
  | .error _ => false

/-! ## Helper lemmas -/

theorem strData_append (a b : String) : (a ++ b).data = a.data ++ b.data := rfl

theorem strLength_data (s : String) : s.length = s.data.length := rfl

theorem listContainsCh_append (l1 l2 : List Char) (t : Char) :
    listContainsCh (l1 ++ l2) t = (listContainsCh l1 t || listContainsCh l2 t) := by
  induction l1 with
  | nil => simp [listContainsCh]
  | cons c cs ih => by_cases hc : c = t <;> simp [listContainsCh, hc, ih]

/-! ## Claims -/

/-- C8: the address normalizer never fails (it is a total function); a
value containing a comma is returned wrapped in double quotes without any
escaping of embedded quotes, and any other value is returned unchanged. -/
theorem claim_C8 : ∀ s : String,
    (pyContains s ',' = true → clean_address s = "\"" ++ s ++ "\"") ∧
    (pyContains s ',' = false → clean_address s = s) := by
  intro s
  constructor <;> intro hc <;> simp [clean_address, hc]

/-- C8 witness: the two examples of the claim. -/
theorem claim_C8_witness :
    (pyContains "123 Main St, Apt 4" ',' = true ∧
      clean_address "123 Main St, Apt 4" = "\"123 Main St, Apt 4\"") ∧
    (pyContains "123 Main St" ',' = false ∧
      clean_address "123 Main St" = "123 Main St") :=
  ⟨⟨by decide, (claim_C8 _).1 (by decide)⟩, ⟨by decide, (claim_C8 _).2 (by decide)⟩⟩

/-- C9: on any value containing a comma (in particular an already-quoted
one) the address normalizer is not idempotent: a second application wraps
the value in quotes again, yielding a strictly different string. -/
theorem claim_C9 : ∀ s : String, pyContains s ',' = true →
    clean_address (clean_address s) ≠ clean_address s := by
  intro s hc
  have hq : pyContains ("\"" ++ s ++ "\"") ',' = true := by
    unfold pyContains at hc ⊢
    rw [strData_append, strData_append, listContainsCh_append, listContainsCh_append]
    simp [hc]
  simp only [clean_address, hc, hq, if_pos]
  intro heq
  have hlen := congrArg (fun t : String => t.data.length) heq
  simp only [strData_append, List.length_append, List.length_singleton] at hlen
  omega

/-- C9 witness: an already-quoted value still contains its comma, so a
second application re-quotes it. -/
theorem claim_C9_witness :
    pyContains "\"a,b\"" ',' = true ∧
    clean_address (clean_address "\"a,b\"") ≠ clean_address "\"a,b\"" :=
  ⟨by decide, claim_C9 _ (by decide)⟩

/-- C6: when `int()` accepts the zip string, a string shorter than 5
characters is left-padded with zeros to exactly length 5 and a string of
length at least 5 passes through unchanged; when `int()` rejects it, the
normalizer raises. -/
theorem claim_C6 : ∀ z : String,
    (exOk (pyInt z) = true →
      (z.length < 5 →
        validate_zip z = .ok (String.mk (List.replicate (5 - z.length) '0') ++ z) ∧
        (String.mk (List.replicate (5 - z.length) '0') ++ z).length = 5) ∧
      (5 ≤ z.length → validate_zip z = .ok z)) ∧
    (exOk (pyInt z) = false → exOk (validate_zip z) = false) := by
  intro z
  constructor
  · intro hOk
    cases hp : pyInt z with
    | error e => rw [hp] at hOk; simp [exOk] at hOk
    | ok v =>
      constructor
      · intro hlen
        have hne : (5 : Int) - (z.length : Int) ≠ 0 := by omega
        have ht : ((5 : Int) - (z.length : Int)).toNat = 5 - z.length := by omega
        unfold validate_zip
        rw [hp]
        rw [if_pos hne, ht]
        refine ⟨rfl, ?_⟩
        rw [strLength_data, strData_append, List.length_append, List.length_replicate]
        have hdz : z.data.length = z.length := rfl
        omega
      · intro hlen
        unfold validate_zip
        rw [hp]
        by_cases h5 : z.length = 5
        · have hz : ¬((5 : Int) - (z.length : Int) ≠ 0) := by omega
          simp [hz]
        · have hne : (5 : Int) - (z.length : Int) ≠ 0 := by omega
          have ht : ((5 : Int) - (z.length : Int)).toNat = 0 := by omega
          rw [if_pos hne, ht]
          rfl
  · intro hBad
    cases hp : pyInt z with
    | ok v => rw [hp] at hBad; simp [exOk] at hBad
    | error e =>
      unfold validate_zip
      rw [hp]
      simp [exOk]

/-- C6 witness: the three examples of the claim. -/
theorem claim_C6_witness :
    ("123".length < 5 ∧ validate_zip "123" = .ok "00123") ∧
    (5 ≤ "12345".length ∧ validate_zip "12345" = .ok "12345") ∧
    (exOk (pyInt "abc") = false ∧ exOk (validate_zip "abc") = false) := by
  refine ⟨⟨by decide, ?_⟩, ⟨by decide, ?_⟩, ⟨by decide, ?_⟩⟩
  · have h := (((claim_C6 "123").1 (by decide)).1 (by decide)).1
    rw [h]; decide
  · exact ((claim_C6 "12345").1 (by decide)).2 (by decide)
  · exact (claim_C6 "abc").2 (by decide)

/-- C3 counterexample: the code does not map `10/2/02 10:00:00 AM` to
`2002-10-02T07:00:00-05:00` as the claim states. -/
theorem claim_C3_cex :
    format_timestamp "10/2/02 10:00:00 AM" ≠ .ok "2002-10-02T07:00:00-05:00" := by
  decide

/-- C3 (amended): converting 10:00 AM at the fixed Pacific offset (-8:00)
to the fixed Eastern offset (-5:00) moves the clock forward three hours,
so the input maps to `2002-10-02T13:00:00-05:00` (1:00 PM Eastern, same
calendar day, no DST). -/
theorem claim_C3 :
    format_timestamp "10/2/02 10:00:00 AM" = .ok "2002-10-02T13:00:00-05:00" := by
  decide

/-- C4: on a row with fewer than 8 fields the subscript raises
`IndexError`, which `except ValueError` (line 97) does not catch: the run
aborts with no WARN diagnostic (and a traceback, hence a non-zero exit),
instead of dropping the row and continuing as the claim states.  Shown on
the empty row (a blank input line): the row normalizer raises
`IndexError`, the row loop produces no diagnostic and sets the aborted
flag, and a file with such a row stops after the header. -/
theorem claim_C4 :
    clean_and_normalize_row [] = .error .indexError ∧
    processRows [[]] = ([], [], true) ∧
    read_and_clean_file [["Timestamp"], []] = some (["Timestamp"], [], true) := by
  decide

/-- C7: the header row is re-joined and emitted first, exactly once,
whatever its content — it never reaches the normalizers and is never
dropped; the second conjunct shows a thoroughly malformed header passing
through verbatim. -/
theorem claim_C7 :
    (∀ (hd : List String) (rest : List (List String)),
      read_and_clean_file (hd :: rest) =
        some (String.intercalate "," hd :: (processRows rest).1,
              (processRows rest).2.1, (processRows rest).2.2)) ∧
    read_and_clean_file [["12/99/99 26:61:61 $#", "xx"]] =
      some (["12/99/99 26:61:61 $#,xx"], [], false) :=
  ⟨fun _ _ => rfl, by decide⟩

/-- Normal form of the row normalizer on an exactly-8-field row: the four
fallible normalizers are consulted in source order and the first failure
wins; on success the output is the 8 canonical fields with the total
recomputed. -/
theorem clean_row8 (c0 c1 c2 c3 c4 c5 c6 c7 : String) :
    clean_and_normalize_row [c0, c1, c2, c3, c4, c5, c6, c7] =
      match format_timestamp c0 with
      | .error e => .error (.valueError e)
      | .ok ts =>
        match validate_zip c2 with
        | .error e => .error (.valueError e)
        | .ok zp =>
          match convert_duration c4 with
          | .error e => .error (.valueError e)
          | .ok foo =>
            match convert_duration c5 with
            | .error e => .error (.valueError e)
            | .ok bar =>
              .ok [ts, clean_address c1, zp, format_full_name c3, pyFloatStr foo,
                   pyFloatStr bar, pyFloatStr (get_total_duration foo bar), c7] := by
  cases hts : format_timestamp c0 <;> cases hz : validate_zip c2 <;>
    cases hf : convert_duration c4 <;> cases hb : convert_duration c5 <;>
      simp [clean_and_normalize_row, idx, liftVE, hts, hz, hf, hb,
            Except.bind, bind, pure, Except.pure]

theorem rowErrCase (r : List String) (e0 : String)
    (hkey : clean_and_normalize_row r = .error (.valueError e0))
    (hone : exOk (format_timestamp (r.getD 0 "")) = true ∧
            exOk (validate_zip (r.getD 2 "")) = true ∧
            exOk (convert_duration (r.getD 4 "")) = true ∧
            exOk (convert_duration (r.getD 5 "")) = true → False) :
    ((∃ out, clean_and_normalize_row r = .ok out) ↔
      (exOk (format_timestamp (r.getD 0 "")) = true ∧
       exOk (validate_zip (r.getD 2 "")) = true ∧
       exOk (convert_duration (r.getD 4 "")) = true ∧
       exOk (convert_duration (r.getD 5 "")) = true)) ∧
    (∀ out, clean_and_normalize_row r = .ok out →
      processRows [r] = ([String.intercalate "," out], [], false)) ∧
    (∀ e, clean_and_normalize_row r = .error e →
      ∃ msg, e = .valueError msg ∧
        processRows [r] =
          ([], ["WARN: row will be omitted due to invalid input format: " ++ msg],
           false)) := by
  refine ⟨⟨?_, ?_⟩, ?_, ?_⟩
  · rintro ⟨out, hout⟩
    rw [hkey] at hout
    simp at hout
  · intro hfour
    exact (hone hfour).elim
  · intro out hout
    rw [hkey] at hout
    simp at hout
  · intro e he
    rw [hkey] at he
    refine ⟨e0, ?_, ?_⟩
    · injection he with h'
      exact h'.symm
    · simp [processRows, hkey]

theorem rowOkCase (r : List String) (out0 : List String)
    (hkey : clean_and_normalize_row r = .ok out0)
    (hfour : exOk (format_timestamp (r.getD 0 "")) = true ∧
             exOk (validate_zip (r.getD 2 "")) = true ∧
             exOk (convert_duration (r.getD 4 "")) = true ∧
             exOk (convert_duration (r.getD 5 "")) = true) :
    ((∃ out, clean_and_normalize_row r = .ok out) ↔
      (exOk (format_timestamp (r.getD 0 "")) = true ∧
       exOk (validate_zip (r.getD 2 "")) = true ∧
       exOk (convert_duration (r.getD 4 "")) = true ∧
       exOk (convert_duration (r.getD 5 "")) = true)) ∧
    (∀ out, clean_and_normalize_row r = .ok out →
      processRows [r] = ([String.intercalate "," out], [], false)) ∧
    (∀ e, clean_and_normalize_row r = .error e →
      ∃ msg, e = .valueError msg ∧
        processRows [r] =
          ([], ["WARN: row will be omitted due to invalid input format: " ++ msg],
           false)) := by
  refine ⟨⟨fun _ => hfour, fun _ => ⟨out0, hkey⟩⟩, ?_, ?_⟩
  · intro out hout
    rw [hkey] at hout
    injection hout with h'
    subst h'
    simp [processRows, hkey]
  · intro e he
    rw [hkey] at he
    simp at he

/-- C1: on any exactly-8-field row, a normalized row is produced iff the
timestamp, zip, foo-duration and bar-duration fields all parse (address,
name and notes are total and never fail); on success the pipeline emits
exactly the one joined output line and no diagnostic, and on failure it
emits no output line and exactly one diagnostic of the form
`WARN: row will be omitted due to invalid input format: <description>`. -/
theorem claim_C1 : ∀ row : List String, row.length = 8 →
    ((∃ out, clean_and_normalize_row row = .ok out) ↔
      (exOk (format_timestamp (row.getD 0 "")) = true ∧
       exOk (validate_zip (row.getD 2 "")) = true ∧
       exOk (convert_duration (row.getD 4 "")) = true ∧
       exOk (convert_duration (row.getD 5 "")) = true)) ∧
    (∀ out, clean_and_normalize_row row = .ok out →
      processRows [row] = ([String.intercalate "," out], [], false)) ∧
    (∀ e, clean_and_normalize_row row = .error e →
      ∃ msg, e = .valueError msg ∧
        processRows [row] =
          ([], ["WARN: row will be omitted due to invalid input format: " ++ msg],
           false)) := by
  intro row hlen
  rcases row with _ | ⟨c0, row⟩; · simp at hlen
  rcases row with _ | ⟨c1, row⟩; · simp at hlen
  rcases row with _ | ⟨c2, row⟩; · simp at hlen
  rcases row with _ | ⟨c3, row⟩; · simp at hlen
  rcases row with _ | ⟨c4, row⟩; · simp at hlen
  rcases row with _ | ⟨c5, row⟩; · simp at hlen
  rcases row with _ | ⟨c6, row⟩; · simp at hlen
  rcases row with _ | ⟨c7, row⟩; · simp at hlen
  have hnil : row = [] := by
    have h0 : row.length = 0 := by simpa using hlen
    exact List.length_eq_zero.mp h0
  subst hnil
  cases hts : format_timestamp c0 with
  | error e0 =>
    refine rowErrCase _ e0 ?_ ?_
    · simp only [clean_row8, hts]
    · rintro ⟨h1, -, -, -⟩
      rw [show ([c0, c1, c2, c3, c4, c5, c6, c7] : List String).getD 0 "" = c0 from rfl,
          hts] at h1
      simp [exOk] at h1
  | ok ts =>
    cases hz : validate_zip c2 with
    | error e0 =>
      refine rowErrCase _ e0 ?_ ?_
      · simp only [clean_row8, hts, hz]
      · rintro ⟨-, h2, -, -⟩
        rw [show ([c0, c1, c2, c3, c4, c5, c6, c7] : List String).getD 2 "" = c2 from rfl,
            hz] at h2
        simp [exOk] at h2
    | ok zp =>
      cases hf : convert_duration c4 with
      | error e0 =>
        refine rowErrCase _ e0 ?_ ?_
        · simp only [clean_row8, hts, hz, hf]
        · rintro ⟨-, -, h3, -⟩
          rw [show ([c0, c1, c2, c3, c4, c5, c6, c7] : List String).getD 4 "" = c4 from rfl,
              hf] at h3
          simp [exOk] at h3
      | ok foo =>
        cases hb : convert_duration c5 with
        | error e0 =>
          refine rowErrCase _ e0 ?_ ?_
          · simp only [clean_row8, hts, hz, hf, hb]
          · rintro ⟨-, -, -, h4⟩
            rw [show ([c0, c1, c2, c3, c4, c5, c6, c7] : List String).getD 5 "" = c5 from rfl,
                hb] at h4
            simp [exOk] at h4
        | ok bar =>
          refine rowOkCase _
            [ts, clean_address c1, zp, format_full_name c3, pyFloatStr foo,
             pyFloatStr bar, pyFloatStr (get_total_duration foo bar), c7] ?_ ?_
          · simp only [clean_row8, hts, hz, hf, hb]
          · refine ⟨?_, ?_, ?_, ?_⟩
            · show exOk (format_timestamp c0) = true
              rw [hts]; rfl
            · show exOk (validate_zip c2) = true
              rw [hz]; rfl
            · show exOk (convert_duration c4) = true
              rw [hf]; rfl
            · show exOk (convert_duration c5) = true
              rw [hb]; rfl

/-- C1 witness: a concrete valid 8-field row produces a row, and a
concrete row with a bad zip is dropped with exactly one WARN line. -/
theorem claim_C1_witness :
    (["10/2/02 10:00:00 AM", "a", "123", "jane", "1:02:03.5", "0:00:01.0", "x",
        "note"] : List String).length = 8 ∧
    (∃ out, clean_and_normalize_row
      ["10/2/02 10:00:00 AM", "a", "123", "jane", "1:02:03.5", "0:00:01.0", "x",
        "note"] = .ok out) ∧
    (["10/2/02 10:00:00 AM", "a", "abc", "jane", "1:02:03.5", "0:00:01.0", "x",
        "note"] : List String).length = 8 ∧
    processRows [["10/2/02 10:00:00 AM", "a", "abc", "jane", "1:02:03.5",
        "0:00:01.0", "x", "note"]] =
      ([], ["WARN: row will be omitted due to invalid input format: " ++
            "invalid literal for int() with base 10: abc"], false) := by
  refine ⟨by decide, ?_, by decide, ?_⟩
  · exact (claim_C1 _ (by decide)).1.mpr (by decide)
  · have h := (claim_C1
      ["10/2/02 10:00:00 AM", "a", "abc", "jane", "1:02:03.5", "0:00:01.0", "x", "note"]
      (by decide)).2.2 (.valueError "invalid literal for int() with base 10: abc")
      (by decide)
    obtain ⟨msg, hmsg, hp⟩ := h
    have hm : msg = "invalid literal for int() with base 10: abc" := by
      injection hmsg.symm
    rw [hm] at hp
    exact hp

/-- Normal form of the row normalizer on any row with at least 8 fields:
the result does not depend on field 6 or on any field past index 7. -/
theorem clean_row8ext (c0 c1 c2 c3 c4 c5 c6 c7 : String) (tl : List String) :
    clean_and_normalize_row (c0 :: c1 :: c2 :: c3 :: c4 :: c5 :: c6 :: c7 :: tl) =
      match format_timestamp c0 with
      | .error e => .error (.valueError e)
      | .ok ts =>
        match validate_zip c2 with
        | .error e => .error (.valueError e)
        | .ok zp =>
          match convert_duration c4 with
          | .error e => .error (.valueError e)
          | .ok foo =>
            match convert_duration c5 with
            | .error e => .error (.valueError e)
            | .ok bar =>
              .ok [ts, clean_address c1, zp, format_full_name c3, pyFloatStr foo,
                   pyFloatStr bar, pyFloatStr (get_total_duration foo bar), c7] := by
  cases hts : format_timestamp c0 <;> cases hz : validate_zip c2 <;>
    cases hf : convert_duration c4 <;> cases hb : convert_duration c5 <;>
      simp [clean_and_normalize_row, idx, liftVE, hts, hz, hf, hb,
            Except.bind, bind, pure, Except.pure]

/-- C10: a row with more than 8 fields is processed exactly like its first
8 fields — the input total-duration field (index 6) and every field from
index 8 on are ignored — and when its four validated fields parse it is
not rejected and yields an 8-field output row. -/
theorem claim_C10 : ∀ row : List String, 8 < row.length →
    (∀ x, clean_and_normalize_row (row.set 6 x) = clean_and_normalize_row row) ∧
    (clean_and_normalize_row (row.take 8) = clean_and_normalize_row row) ∧
    ((exOk (format_timestamp (row.getD 0 "")) = true ∧
      exOk (validate_zip (row.getD 2 "")) = true ∧
      exOk (convert_duration (row.getD 4 "")) = true ∧
      exOk (convert_duration (row.getD 5 "")) = true) →
      ∃ out, clean_and_normalize_row row = .ok out ∧ out.length = 8) := by
  intro row hlen
  rcases row with _ | ⟨c0, row⟩; · simp at hlen
  rcases row with _ | ⟨c1, row⟩; · simp at hlen
  rcases row with _ | ⟨c2, row⟩; · simp at hlen
  rcases row with _ | ⟨c3, row⟩; · simp at hlen
  rcases row with _ | ⟨c4, row⟩; · simp at hlen
  rcases row with _ | ⟨c5, row⟩; · simp at hlen
  rcases row with _ | ⟨c6, row⟩; · simp at hlen
  rcases row with _ | ⟨c7, row⟩; · simp at hlen
  rcases row with _ | ⟨c8, tl⟩; · simp at hlen
  refine ⟨?_, ?_, ?_⟩
  · intro x
    show clean_and_normalize_row
        (c0 :: c1 :: c2 :: c3 :: c4 :: c5 :: x :: c7 :: c8 :: tl) = _
    rw [clean_row8ext c0 c1 c2 c3 c4 c5 x c7 (c8 :: tl),
        clean_row8ext c0 c1 c2 c3 c4 c5 c6 c7 (c8 :: tl)]
  · show clean_and_normalize_row
        (c0 :: c1 :: c2 :: c3 :: c4 :: c5 :: c6 :: c7 :: []) = _
    rw [clean_row8ext c0 c1 c2 c3 c4 c5 c6 c7 [],
        clean_row8ext c0 c1 c2 c3 c4 c5 c6 c7 (c8 :: tl)]
  · rintro ⟨h1, h2, h3, h4⟩
    rw [show (c0 :: c1 :: c2 :: c3 :: c4 :: c5 :: c6 :: c7 :: c8 :: tl).getD 0 "" = c0
        from rfl] at h1
    rw [show (c0 :: c1 :: c2 :: c3 :: c4 :: c5 :: c6 :: c7 :: c8 :: tl).getD 2 "" = c2
        from rfl] at h2
    rw [show (c0 :: c1 :: c2 :: c3 :: c4 :: c5 :: c6 :: c7 :: c8 :: tl).getD 4 "" = c4
        from rfl] at h3
    rw [show (c0 :: c1 :: c2 :: c3 :: c4 :: c5 :: c6 :: c7 :: c8 :: tl).getD 5 "" = c5
        from rfl] at h4
    cases hts : format_timestamp c0 with
    | error e0 => rw [hts] at h1; simp [exOk] at h1
    | ok ts =>
      cases hz : validate_zip c2 with
      | error e0 => rw [hz] at h2; simp [exOk] at h2
      | ok zp =>
        cases hf : convert_duration c4 with
        | error e0 => rw [hf] at h3; simp [exOk] at h3
        | ok foo =>
          cases hb : convert_duration c5 with
          | error e0 => rw [hb] at h4; simp [exOk] at h4
          | ok bar =>
            refine ⟨[ts, clean_address c1, zp, format_full_name c3, pyFloatStr foo,
                     pyFloatStr bar, pyFloatStr (get_total_duration foo bar), c7],
                    ?_, rfl⟩
            simp only [clean_row8ext, hts, hz, hf, hb]

/-- C10 witness: a concrete 9-field row with valid fields yields an
8-field output, unchanged when field 6 or the extra field varies. -/
theorem claim_C10_witness :
    8 < (["10/2/02 10:00:00 AM", "a", "123", "jane", "1:02:03.5", "0:00:01.0",
          "x", "note", "extra"] : List String).length ∧
    (∃ out, clean_and_normalize_row
        ["10/2/02 10:00:00 AM", "a", "123", "jane", "1:02:03.5", "0:00:01.0",
         "x", "note", "extra"] = .ok out ∧ out.length = 8) ∧
    clean_and_normalize_row
        (["10/2/02 10:00:00 AM", "a", "123", "jane", "1:02:03.5", "0:00:01.0",
          "x", "note", "extra"].set 6 "other") =
      clean_and_normalize_row
        ["10/2/02 10:00:00 AM", "a", "123", "jane", "1:02:03.5", "0:00:01.0",
         "x", "note", "extra"] ∧
    clean_and_normalize_row
        (["10/2/02 10:00:00 AM", "a", "123", "jane", "1:02:03.5", "0:00:01.0",
          "x", "note", "extra"].take 8) =
      clean_and_normalize_row
        ["10/2/02 10:00:00 AM", "a", "123", "jane", "1:02:03.5", "0:00:01.0",
         "x", "note", "extra"] :=
  ⟨by decide, (claim_C10 _ (by decide)).2.2 (by decide),
   (claim_C10 _ (by decide)).1 "other", (claim_C10 _ (by decide)).2.1⟩

theorem pyFloatToRat_add (a b : PyFloat) :
    pyFloatToRat (pyFloatAdd a b) = pyFloatToRat a + pyFloatToRat b := by
  unfold pyFloatAdd pyFloatToRat
  by_cases hle : a.exp ≤ b.exp
  · rw [if_pos hle]
    have h10 : (10 : ℚ) ^ (b.exp - a.exp) * (10 : ℚ) ^ a.exp = (10 : ℚ) ^ b.exp := by
      rw [← pow_add]
      congr 1
      omega
    push_cast
    rw [add_div]
    congr 1
    rw [← h10, mul_comm ((a.num : ℚ)) ((10 : ℚ) ^ (b.exp - a.exp))]
    exact mul_div_mul_left _ _ (pow_ne_zero _ (by norm_num))
  · rw [if_neg hle]
    have h10 : (10 : ℚ) ^ (a.exp - b.exp) * (10 : ℚ) ^ b.exp = (10 : ℚ) ^ a.exp := by
      rw [← pow_add]
      congr 1
      omega
    push_cast
    rw [add_div]
    congr 1
    rw [← h10, mul_comm ((b.num : ℚ)) ((10 : ℚ) ^ (a.exp - b.exp))]
    exact mul_div_mul_left _ _ (pow_ne_zero _ (by norm_num))

/-- C5: a duration parses iff it splits on `:` into exactly three parts
with integer hours and minutes and a float seconds; its value is
`hours*3600 + minutes*60 + seconds` (exact decimal model of the float
arithmetic, rendered by the float-to-string model); and on a successful
8-field row the output total-duration field is always the formatted sum
of the two computed durations and never depends on the input field 6. -/
theorem claim_C5 :
    (∀ dur : String,
      (exOk (convert_duration dur) = true ↔
        ∃ hh mm ss, pySplit dur ':' = [hh, mm, ss] ∧
          exOk (pyInt hh) = true ∧ exOk (pyInt mm) = true ∧
          exOk (pyFloat ss) = true)) ∧
    (∀ dur hh mm ss hI mI sF, pySplit dur ':' = [hh, mm, ss] →
      pyInt hh = .ok hI → pyInt mm = .ok mI → pyFloat ss = .ok sF →
      ∃ v, convert_duration dur = .ok v ∧
        pyFloatToRat v = (hI : ℚ) * 3600 + (mI : ℚ) * 60 + pyFloatToRat sF) ∧
    (∀ row out, row.length = 8 → clean_and_normalize_row row = .ok out →
      ∃ fD bD, convert_duration (row.getD 4 "") = .ok fD ∧
        convert_duration (row.getD 5 "") = .ok bD ∧
        out.getD 6 "" = pyFloatStr (get_total_duration fD bD) ∧
        ∀ x, clean_and_normalize_row (row.set 6 x) = .ok out) := by
  refine ⟨?_, ?_, ?_⟩
  · intro dur
    rcases hsp : pySplit dur ':' with _ | ⟨p1, _ | ⟨p2, _ | ⟨p3, _ | ⟨p4, tl⟩⟩⟩⟩
    · simp [convert_duration, hsp, exOk]
    · simp [convert_duration, hsp, exOk]
    · simp [convert_duration, hsp, exOk]
    · cases h1 : pyInt p1 <;> cases h2 : pyInt p2 <;> cases h3 : pyFloat p3 <;>
        simp [convert_duration, hsp, h1, h2, h3, exOk,
              Except.bind, bind, pure, Except.pure]
      exact ⟨p1, p2, p3, ⟨rfl, rfl, rfl⟩, by rw [h1], by rw [h2], by rw [h3]⟩
    · simp [convert_duration, hsp, exOk]
  · intro dur hh mm ss hI mI sF hsp hi hm hs
    refine ⟨pyFloatAdd ⟨hI * 3600 + mI * 60, 0⟩ sF, ?_, ?_⟩
    · simp [convert_duration, hsp, hi, hm, hs, Except.bind, bind, pure, Except.pure]
    · rw [pyFloatToRat_add]
      have hbase : pyFloatToRat ⟨hI * 3600 + mI * 60, 0⟩ =
          (hI : ℚ) * 3600 + (mI : ℚ) * 60 := by
        unfold pyFloatToRat
        push_cast
        ring
      rw [hbase]
  · intro row out hlen hok
    rcases row with _ | ⟨c0, row⟩; · simp at hlen
    rcases row with _ | ⟨c1, row⟩; · simp at hlen
    rcases row with _ | ⟨c2, row⟩; · simp at hlen
    rcases row with _ | ⟨c3, row⟩; · simp at hlen
    rcases row with _ | ⟨c4, row⟩; · simp at hlen
    rcases row with _ | ⟨c5, row⟩; · simp at hlen
    rcases row with _ | ⟨c6, row⟩; · simp at hlen
    rcases row with _ | ⟨c7, row⟩; · simp at hlen
    have hnil : row = [] := by
      have h0 : row.length = 0 := by simpa using hlen
      exact List.length_eq_zero.mp h0
    subst hnil
    cases hts : format_timestamp c0 with
    | error e0 =>
      have hred : clean_and_normalize_row [c0, c1, c2, c3, c4, c5, c6, c7] =
          .error (.valueError e0) := by simp only [clean_row8, hts]
      rw [hred] at hok
      simp at hok
    | ok ts =>
      cases hz : validate_zip c2 with
      | error e0 =>
        have hred : clean_and_normalize_row [c0, c1, c2, c3, c4, c5, c6, c7] =
            .error (.valueError e0) := by simp only [clean_row8, hts, hz]
        rw [hred] at hok
        simp at hok
      | ok zp =>
        cases hf : convert_duration c4 with
        | error e0 =>
          have hred : clean_and_normalize_row [c0, c1, c2, c3, c4, c5, c6, c7] =
              .error (.valueError e0) := by simp only [clean_row8, hts, hz, hf]
          rw [hred] at hok
          simp at hok
        | ok foo =>
          cases hb : convert_duration c5 with
          | error e0 =>
            have hred : clean_and_normalize_row [c0, c1, c2, c3, c4, c5, c6, c7] =
                .error (.valueError e0) := by simp only [clean_row8, hts, hz, hf, hb]
            rw [hred] at hok
            simp at hok
          | ok bar =>
            have hred : clean_and_normalize_row [c0, c1, c2, c3, c4, c5, c6, c7] =
                .ok [ts, clean_address c1, zp, format_full_name c3, pyFloatStr foo,
                     pyFloatStr bar, pyFloatStr (get_total_duration foo bar), c7] := by
              simp only [clean_row8, hts, hz, hf, hb]
            rw [hred] at hok
            injection hok with hout
            subst hout
            refine ⟨foo, bar, hf, hb, rfl, ?_⟩
            intro x
            show clean_and_normalize_row [c0, c1, c2, c3, c4, c5, x, c7] = _
            simp only [clean_row8, hts, hz, hf, hb]

/-- C5 witness: the example of the claim — Foo `1:02:03.5` (3723.5 s) and
Bar `0:00:01.0` (1.0 s) give a recomputed total-duration field `3724.5`,
whatever the input total-duration field held. -/
theorem claim_C5_witness :
    pySplit "1:02:03.5" ':' = ["1", "02", "03.5"] ∧
    pyInt "1" = .ok 1 ∧ pyInt "02" = .ok 2 ∧ pyFloat "03.5" = .ok ⟨35, 1⟩ ∧
    (∃ v, convert_duration "1:02:03.5" = .ok v ∧
      pyFloatToRat v = (((1 : Int) : ℚ)) * 3600 + (((2 : Int) : ℚ)) * 60 +
        pyFloatToRat ⟨35, 1⟩) ∧
    pyFloatStr (get_total_duration ⟨37235, 1⟩ ⟨10, 1⟩) = "3724.5" ∧
    (∃ fD bD,
      convert_duration ((["10/2/02 10:00:00 AM", "a", "123", "jane", "1:02:03.5",
          "0:00:01.0", "x", "note"] : List String).getD 4 "") = .ok fD ∧
      convert_duration ((["10/2/02 10:00:00 AM", "a", "123", "jane", "1:02:03.5",
          "0:00:01.0", "x", "note"] : List String).getD 5 "") = .ok bD ∧
      (["2002-10-02T13:00:00-05:00", "a", "00123", "JANE", "3723.5", "1.0",
          "3724.5", "note"] : List String).getD 6 "" =
        pyFloatStr (get_total_duration fD bD) ∧
      ∀ x, clean_and_normalize_row
          ((["10/2/02 10:00:00 AM", "a", "123", "jane", "1:02:03.5", "0:00:01.0",
             "x", "note"] : List String).set 6 x) =
        .ok ["2002-10-02T13:00:00-05:00", "a", "00123", "JANE", "3723.5", "1.0",
             "3724.5", "note"]) := by
  refine ⟨by decide, by decide, by decide, by decide, ?_, by decide, ?_⟩
  · exact claim_C5.2.1 "1:02:03.5" "1" "02" "03.5" 1 2 ⟨35, 1⟩
      (by decide) (by decide) (by decide) (by decide)
  · exact claim_C5.2.2
      ["10/2/02 10:00:00 AM", "a", "123", "jane", "1:02:03.5", "0:00:01.0", "x",
       "note"]
      ["2002-10-02T13:00:00-05:00", "a", "00123", "JANE", "3723.5", "1.0",
       "3724.5", "note"]
      (by decide) (by decide)

/-! ## Bounds produced by the strptime scanner -/

theorem chIn_iff (c : Char) (lo hi : Nat) :
    chIn c lo hi = true ↔ lo ≤ c.toNat ∧ c.toNat ≤ hi := by
  simp [chIn]

theorem scanOneTo12_bounds : ∀ cs m r, scanOneTo12 cs = some (m, r) →
    1 ≤ m ∧ m ≤ 12 := by
  intro cs m r hsc
  unfold scanOneTo12 at hsc
  repeat' split at hsc
  all_goals simp_all [chIn, digitVal]
  all_goals omega

theorem scanDay_bounds : ∀ cs d r, scanDay cs = some (d, r) →
    1 ≤ d ∧ d ≤ 31 := by
  intro cs d r hsc
  unfold scanDay at hsc
  repeat' split at hsc
  all_goals simp_all [chIn, digitVal, isDigitCh]
  all_goals omega

theorem scanYear_bounds : ∀ cs v r, scanYear cs = some (v, r) → v ≤ 99 := by
  intro cs v r hsc
  unfold scanYear at hsc
  repeat' split at hsc
  all_goals simp_all [chIn, digitVal, isDigitCh]
  all_goals omega

theorem scanMinute_bounds : ∀ cs v r, scanMinute cs = some (v, r) → v ≤ 59 := by
  intro cs v r hsc
  unfold scanMinute at hsc
  repeat' split at hsc
  all_goals simp_all [chIn, digitVal, isDigitCh]
  all_goals omega

theorem scanSecond_bounds : ∀ cs v r, scanSecond cs = some (v, r) → v ≤ 61 := by
  intro cs v r hsc
  unfold scanSecond at hsc
  split at hsc
  · exact absurd hsc (by simp)
  · split at hsc
    · repeat' split at hsc
      all_goals simp_all [chIn, digitVal]
      all_goals omega
    · have := scanMinute_bounds _ _ _ hsc
      omega

theorem strptimeScan_bounds : ∀ cs raw r, strptimeScan cs = some (raw, r) →
    1 ≤ raw.mo ∧ raw.mo ≤ 12 ∧ 1 ≤ raw.d ∧ raw.d ≤ 31 ∧ raw.y2 ≤ 99 ∧
    1 ≤ raw.h12 ∧ raw.h12 ≤ 12 ∧ raw.mi ≤ 59 ∧ raw.s ≤ 61 := by
  intro cs raw r hsc
  simp only [strptimeScan, Option.bind_eq_some, Option.pure_def,
             Option.some.injEq, Prod.mk.injEq, bind] at hsc
  obtain ⟨⟨mo, r1⟩, h1, hsc⟩ := hsc
  obtain ⟨r2, h2, hsc⟩ := hsc
  obtain ⟨⟨d, r3⟩, h3, hsc⟩ := hsc
  obtain ⟨r4, h4, hsc⟩ := hsc
  obtain ⟨⟨y2, r5⟩, h5, hsc⟩ := hsc
  obtain ⟨r6, h6, hsc⟩ := hsc
  obtain ⟨⟨h12, r7⟩, h7, hsc⟩ := hsc
  obtain ⟨r8, h8, hsc⟩ := hsc
  obtain ⟨⟨mi, r9⟩, h9, hsc⟩ := hsc
  obtain ⟨r10, h10, hsc⟩ := hsc
  obtain ⟨⟨sv, r11⟩, h11, hsc⟩ := hsc
  obtain ⟨r12, h12x, hsc⟩ := hsc
  obtain ⟨⟨pm, r13⟩, h13, hsc⟩ := hsc
  obtain ⟨hraw, -⟩ := hsc
  subst hraw
  have b1 := scanOneTo12_bounds _ _ _ h1
  have b3 := scanDay_bounds _ _ _ h3
  have b5 := scanYear_bounds _ _ _ h5
  have b7 := scanOneTo12_bounds _ _ _ h7
  have b9 := scanMinute_bounds _ _ _ h9
  have b11 := scanSecond_bounds _ _ _ h11
  exact ⟨b1.1, b1.2, b3.1, b3.2, b5, b7.1, b7.2, b9, b11⟩

theorem strptimeDT_bounds : ∀ s dt, strptimeDT s = .ok dt →
    DTValid dt ∧ 1969 ≤ dt.y ∧ dt.y ≤ 2068 := by
  intro s dt hdt
  unfold strptimeDT at hdt
  split at hdt
  · simp at hdt
  rename_i raw leftover heq
  obtain ⟨b1, b2, b3, b4, b5, b6, b7, b8, b9⟩ := strptimeScan_bounds _ _ _ heq
  split at hdt
  · simp at hdt
  by_cases hy : 69 ≤ raw.y2
  · simp only [if_pos hy] at hdt
    split at hdt
    · simp at hdt
    rename_i hday
    split at hdt
    · simp at hdt
    rename_i hsec
    injection hdt with hdt'
    subst hdt'
    unfold DTValid
    dsimp only
    refine ⟨⟨b1, b2, b3, by omega, ?_, b8, by omega⟩, by omega, by omega⟩
    split <;> split <;> omega
  · simp only [if_neg hy] at hdt
    split at hdt
    · simp at hdt
    rename_i hday
    split at hdt
    · simp at hdt
    rename_i hsec
    injection hdt with hdt'
    subst hdt'
    unfold DTValid
    dsimp only
    refine ⟨⟨b1, b2, b3, by omega, ?_, b8, by omega⟩, by omega, by omega⟩
    split <;> split <;> omega

/-! ## Calendar correctness: the split into days is inverted by `ofSecs` -/

theorem daysInYearB_bounds (b : Bool) : 365 ≤ daysInYearB b ∧ daysInYearB b ≤ 366 := by
  cases b <;> simp [daysInYearB]

theorem daysInYear_bounds (y : Nat) : 365 ≤ daysInYear y ∧ daysInYear y ≤ 366 :=
  daysInYearB_bounds (isLeap y)

set_option maxRecDepth 4000 in
theorem findM_correct : ∀ (b : Bool) (r : Nat), r < 366 →
    r < daysInYearB b →
    1 ≤ (findM 12 b 1 r).1 ∧ (findM 12 b 1 r).1 ≤ 12 ∧
    1 ≤ (findM 12 b 1 r).2 ∧ (findM 12 b 1 r).2 ≤ daysInMonthB b (findM 12 b 1 r).1 ∧
    monthsBeforeB b (findM 12 b 1 r).1 + ((findM 12 b 1 r).2 - 1) = r := by
  intro b
  cases b <;> decide

theorem monthsBeforeB_lt : ∀ (b : Bool), ∀ mo < 13, ∀ d < 32,
    1 ≤ mo → 1 ≤ d → d ≤ daysInMonthB b mo →
    monthsBeforeB b mo + (d - 1) < daysInYearB b := by
  intro b
  cases b <;> decide

theorem daysInMonthB_le (b : Bool) (m : Nat) : daysInMonthB b m ≤ 31 := by
  unfold daysInMonthB
  split <;> (try split) <;> omega

theorem sumYears_lb (y k : Nat) : 365 * k ≤ sumYears y k := by
  induction k generalizing y with
  | zero => simp [sumYears]
  | succ k ih =>
    have h1 := ih (y + 1)
    have h2 := (daysInYear_bounds y).1
    have h3 : sumYears y (k + 1) = daysInYear y + sumYears (y + 1) k := rfl
    omega

theorem sumYears_ub (y k : Nat) : sumYears y k ≤ 366 * k := by
  induction k generalizing y with
  | zero => simp [sumYears]
  | succ k ih =>
    have h1 := ih (y + 1)
    have h2 := (daysInYear_bounds y).2
    have h3 : sumYears y (k + 1) = daysInYear y + sumYears (y + 1) k := rfl
    omega

theorem findY_correct : ∀ (fuel y n : Nat), n < sumYears y fuel →
    y ≤ (findY fuel y n).1 ∧
    (findY fuel y n).2 < daysInYear (findY fuel y n).1 ∧
    sumYears y ((findY fuel y n).1 - y) + (findY fuel y n).2 = n := by
  intro fuel
  induction fuel with
  | zero =>
    intro y n hn
    simp [sumYears] at hn
  | succ fuel ih =>
    intro y n hn
    by_cases hlt : n < daysInYear y
    · simp only [findY, if_pos hlt]
      refine ⟨Nat.le_refl y, hlt, ?_⟩
      simp [sumYears]
    · simp only [findY, if_neg hlt]
      have hstep : sumYears y (fuel + 1) = daysInYear y + sumYears (y + 1) fuel := rfl
      have hn' : n - daysInYear y < sumYears (y + 1) fuel := by omega
      obtain ⟨ha, hb, hc⟩ := ih (y + 1) (n - daysInYear y) hn'
      refine ⟨by omega, hb, ?_⟩
      have hk : (findY fuel (y + 1) (n - daysInYear y)).1 - y =
          ((findY fuel (y + 1) (n - daysInYear y)).1 - (y + 1)) + 1 := by omega
      rw [hk]
      have hunf : sumYears y
          (((findY fuel (y + 1) (n - daysInYear y)).1 - (y + 1)) + 1) =
          daysInYear y +
          sumYears (y + 1) ((findY fuel (y + 1) (n - daysInYear y)).1 - (y + 1)) := rfl
      omega

theorem ofSecs_correct (n : Nat) (hbound : n / 86400 < sumYears 1969 400) :
    DTValid (ofSecs n) ∧ toSecs (ofSecs n) = n ∧ 1969 ≤ (ofSecs n).y := by
  obtain ⟨hge, hr, hsum⟩ := findY_correct 400 1969 (n / 86400) hbound
  have hr366 : (findY 400 1969 (n / 86400)).2 < 366 := by
    have := (daysInYear_bounds (findY 400 1969 (n / 86400)).1).2
    omega
  obtain ⟨hm1, hm2, hm3, hm4, hm5⟩ :=
    findM_correct (isLeap (findY 400 1969 (n / 86400)).1)
      (findY 400 1969 (n / 86400)).2 hr366 hr
  have hsod : n % 86400 < 86400 := Nat.mod_lt _ (by norm_num)
  unfold DTValid ofSecs toSecs toDays yearsBefore monthsBefore daysInMonth
  dsimp only
  refine ⟨⟨hm1, hm2, hm3, hm4, by omega, by omega, by omega⟩, ?_, hge⟩
  omega

theorem addSecs_correct (dt : DT) (hv : DTValid dt)
    (hy1 : 1969 ≤ dt.y) (hy2 : dt.y ≤ 2068) :
    DTValid (addSecs dt 10800) ∧ toSecs (addSecs dt 10800) = toSecs dt + 10800 := by
  obtain ⟨hmo1, hmo2, hd1, hd2, hh, hmi, hs⟩ := hv
  have hd31 : dt.d ≤ 31 := le_trans hd2 (daysInMonthB_le (isLeap dt.y) dt.mo)
  have hmb : monthsBeforeB (isLeap dt.y) dt.mo + (dt.d - 1) <
      daysInYearB (isLeap dt.y) :=
    monthsBeforeB_lt (isLeap dt.y) dt.mo (by omega) dt.d (by omega) hmo1 hd1 hd2
  have hub := sumYears_ub 1969 (dt.y - 1969)
  have hlb := sumYears_lb 1969 400
  have hdy := daysInYearB_bounds (isLeap dt.y)
  have hbound : (toSecs dt + 10800) / 86400 < sumYears 1969 400 := by
    unfold toSecs toDays yearsBefore monthsBefore
    omega
  obtain ⟨hvalid, htos, hgey⟩ := ofSecs_correct (toSecs dt + 10800) hbound
  exact ⟨hvalid, htos⟩

/-- C2 counterexample: `1/2/02  9:3:4 am` matches neither written pattern
(`M/D/YY HH:MM:SS AM/PM` / `MM/DD/YY HH:MM:SS AM/PM`: its hour, minute
and second are single digits, the date and time are separated by two
spaces, and the meridiem is lower case), yet the normalizer accepts it
instead of failing. -/
theorem claim_C2_cex :
    specTimestampPattern "1/2/02  9:3:4 am" = false ∧
    format_timestamp "1/2/02  9:3:4 am" = .ok "2002-01-02T12:03:04-05:00" := by
  constructor <;> decide

/-- C2 (amended): the normalizer succeeds exactly on the strings accepted
by the strptime grammar for `%m/%d/%y %I:%M:%S %p` with a calendar-valid
date — month, day and hour of 1 or 2 digits (1-12, 1-31, 1-12), exactly
2-digit year, 1-or-2-digit minute (0-59) and second (0-61 textually, with
60-61 rejected at construction), case-insensitive AM/PM, any runs of
whitespace at the two separators — and on success it interprets the
parsed naive time at the fixed source offset -8:00 and re-expresses the
same instant at the fixed target offset -5:00 (the clock advances by
(-5:00) - (-8:00) = 10800 seconds), emitting ISO-8601 with the numeric
offset `-05:00`; on every other string it fails with the parse error. -/
theorem claim_C2 :
    (∀ s dt, strptimeDT s = .ok dt →
      DTValid dt ∧
      ∃ dt2, format_timestamp s = .ok (isoCore dt2 ++ "-05:00") ∧
        DTValid dt2 ∧ toSecs dt2 = toSecs dt + 10800) ∧
    (∀ s e, strptimeDT s = .error e → format_timestamp s = .error e) := by
  constructor
  · intro s dt hdt
    obtain ⟨hvalid, hy1, hy2⟩ := strptimeDT_bounds s dt hdt
    obtain ⟨hv2, ht2⟩ := addSecs_correct dt hvalid hy1 hy2
    refine ⟨hvalid, addSecs dt 10800, ?_, hv2, ht2⟩
    unfold format_timestamp
    rw [hdt]
    rfl
  · intro s e he
    unfold format_timestamp
    rw [he]
    rfl

/-- C2 witness: the conversion and validity facts instantiated on a
concrete accepted timestamp. -/
theorem claim_C2_witness :
    strptimeDT "10/2/02 10:00:00 AM" = .ok ⟨2002, 10, 2, 10, 0, 0⟩ ∧
    (DTValid (⟨2002, 10, 2, 10, 0, 0⟩ : DT) ∧
     ∃ dt2, format_timestamp "10/2/02 10:00:00 AM" = .ok (isoCore dt2 ++ "-05:00") ∧
       DTValid dt2 ∧ toSecs dt2 = toSecs ⟨2002, 10, 2, 10, 0, 0⟩ + 10800) :=
  ⟨by decide, claim_C2.1 _ _ (by decide)⟩
